import Mathlib

/-!
Shallow embedding of `final_version_of_the_bot.py`, a command-line
contact-management assistant.  Python objects are modelled as Lean
structures, mutation as explicit state passing, and raised exceptions as
`Except` values.  The address book (a Python `dict` subclass) is modelled
as an insertion-ordered association list whose update keeps the position
of an existing key, matching `dict` semantics.
-/

namespace Bot

/-- The Python exception classes the program raises or catches. -/
inductive PyError where
  | valueError
  | keyError
  | indexError
deriving DecidableEq, Repr

/-- A computation that may raise one of the modelled Python exceptions. -/
abbrev Py (α : Type) : Type := Except PyError α

/-! ## Python string helpers -/

/-- ASCII decimal digit, the language of the regex class `[0-9]`. -/
def isAsciiDigit (c : Char) : Bool :=
  48 ≤ c.toNat && c.toNat ≤ 57

/-- Characters accepted by Python `str.isdigit`.  Besides the ASCII
digits, Python accepts every Unicode character with the digit property;
this embedding covers the ASCII digits plus representative non-ASCII
digit ranges (superscript one/two/three U+00B9/U+00B2/U+00B3, the
superscript block U+2070/U+2074..U+2079, Arabic-Indic U+0660..U+0669,
extended Arabic-Indic U+06F0..U+06F9, Devanagari U+0966..U+096F and
fullwidth U+FF10..U+FF19), all of which Python `str.isdigit` accepts. -/
def pyIsDigitChar (c : Char) : Bool :=
  isAsciiDigit c ||
  c.toNat = 0xB9 || c.toNat = 0xB2 || c.toNat = 0xB3 ||
  c.toNat = 0x2070 || (0x2074 ≤ c.toNat && c.toNat ≤ 0x2079) ||
  (0x660 ≤ c.toNat && c.toNat ≤ 0x669) ||
  (0x6F0 ≤ c.toNat && c.toNat ≤ 0x6F9) ||
  (0x966 ≤ c.toNat && c.toNat ≤ 0x96F) ||
  (0xFF10 ≤ c.toNat && c.toNat ≤ 0xFF19)

/-- Python `str.isdigit`: true iff the string is nonempty and every
character is a digit character. -/
def pyIsDigit (s : String) : Bool :=
  !s.data.isEmpty && s.data.all pyIsDigitChar

/-- Accumulator loop for `str.split()`: `acc` holds the reversed
characters of the token being read. -/
def pySplitAux : List Char → List Char → List String
  | [], acc => if acc.isEmpty then [] else [String.mk acc.reverse]
  | c :: cs, acc =>
      if c.isWhitespace then
        if acc.isEmpty then pySplitAux cs []
        else String.mk acc.reverse :: pySplitAux cs []
      else pySplitAux cs (c :: acc)

/-- Python `str.split()` with no argument: split on whitespace runs,
dropping empty pieces (so the result never contains an empty string and
is empty exactly when the input is empty or all whitespace). -/
def pySplit (s : String) : List String :=
  pySplitAux s.data []

/-- Accumulator loop for `str.split('.')`: empty pieces are kept. -/
def splitDotsAux : List Char → List Char → List String
  | [], acc => [String.mk acc.reverse]
  | c :: cs, acc =>
      if c = '.' then String.mk acc.reverse :: splitDotsAux cs []
      else splitDotsAux cs (c :: acc)

/-- Python `s.split('.')`. -/
def splitDots (s : String) : List String :=
  splitDotsAux s.data []

/-- Python `str.lower()` restricted to ASCII case mapping; the command
names it is compared against are all ASCII. -/
def pyLower (s : String) : String :=
  String.mk (s.data.map Char.toLower)

/-! ## Dates (the parts of Python `datetime.date` the program uses) -/

/-- A Python `datetime.date` / the date part of a `datetime`:
a (year, month, day) triple. -/
structure PyDate where
  year : Nat
  month : Nat
  day : Nat
deriving DecidableEq, Repr

/-- Gregorian leap-year rule, as in Python's `calendar.isleap`. -/
def isLeap (y : Nat) : Bool :=
  (y % 4 = 0 && y % 100 ≠ 0) || y % 400 = 0

/-- Number of days in a month of a given year. -/
def daysInMonth (y m : Nat) : Nat :=
  if m = 2 then (if isLeap y then 29 else 28)
  else if m = 4 || m = 6 || m = 9 || m = 11 then 30
  else 31

/-- Validity as checked by the `datetime.date` constructor:
`MINYEAR = 1 ≤ year ≤ 9999 = MAXYEAR`, month in range, day in range for
the month. -/
def validYMD (y m d : Nat) : Bool :=
  1 ≤ y && y ≤ 9999 && 1 ≤ m && m ≤ 12 && 1 ≤ d && d ≤ daysInMonth y m

/-- A date is valid when its components pass the constructor check. -/
def PyDate.valid (dt : PyDate) : Bool :=
  validYMD dt.year dt.month dt.day

/-- Structural well-formedness without the year-9999 cap; every date the
constructor accepts satisfies it, and it is preserved by stepping one day
forward, which the capped notion is not (at 9999-12-31). -/
def PyDate.ok (dt : PyDate) : Prop :=
  1 ≤ dt.year ∧ 1 ≤ dt.month ∧ dt.month ≤ 12 ∧ 1 ≤ dt.day ∧
    dt.day ≤ daysInMonth dt.year dt.month

instance (dt : PyDate) : Decidable dt.ok := by
  unfold PyDate.ok; infer_instance

/-- Days in all years before year `y` (CPython `_days_before_year`):
for year 1 this is 0, so 0001-01-01 has ordinal 1. -/
def daysBeforeYear (y : Nat) : Nat :=
  let n := y - 1
  n * 365 + n / 4 - n / 100 + n / 400

/-- Days in year `y` before month `m` (CPython `_days_before_month`). -/
def daysBeforeMonth (y : Nat) : Nat → Nat
  | 0 => 0
  | 1 => 0
  | m + 2 => daysBeforeMonth y (m + 1) + daysInMonth y (m + 1)

/-- Python `date.toordinal`: day count with 0001-01-01 ↦ 1. -/
def toOrdinal (dt : PyDate) : Nat :=
  daysBeforeYear dt.year + daysBeforeMonth dt.year dt.month + dt.day

/-- Python `date.weekday`: Monday = 0 .. Sunday = 6. -/
def PyDate.weekday (dt : PyDate) : Nat :=
  (toOrdinal dt + 6) % 7

/-- Python `date.__lt__` (dates compare like their ordinals). -/
def dateLt (a b : PyDate) : Bool :=
  toOrdinal a < toOrdinal b

/-- Python date subtraction `(a - b).days`, an integer day count. -/
def dateSub (a b : PyDate) : Int :=
  (toOrdinal a : Int) - (toOrdinal b : Int)

/-- The day after `dt` (year incremented past 12-31). -/
def nextDay (dt : PyDate) : PyDate :=
  if dt.day < daysInMonth dt.year dt.month then
    ⟨dt.year, dt.month, dt.day + 1⟩
  else if dt.month < 12 then
    ⟨dt.year, dt.month + 1, 1⟩
  else
    ⟨dt.year + 1, 1, 1⟩

/-- Python `date + timedelta(days = n)` for `n ≥ 0`, as `n` single-day
steps (Python computes the same result through ordinals). -/
def addDays (dt : PyDate) (n : Nat) : PyDate :=
  Nat.rec dt (fun _ d => nextDay d) n

/-- Python `date.replace(year = y)`: revalidates and raises `ValueError`
when the month/day do not exist in the new year (Feb 29 in a non-leap
year) or the year is out of the 1..9999 range. -/
def PyDate.replaceYear (dt : PyDate) (y : Nat) : Py PyDate :=
  if validYMD y dt.month dt.day then .ok ⟨y, dt.month, dt.day⟩
  else .error .valueError

/-- Zero-pad a numeral to two digits, as `strftime` `%d` / `%m` do. -/
def pad2 (n : Nat) : String :=
  if n < 10 then "0" ++ toString n else toString n

/-- Zero-pad a year to four digits, as `strftime` `%Y` does for the
years in range. -/
def pad4 (n : Nat) : String :=
  if n < 10 then "000" ++ toString n
  else if n < 100 then "00" ++ toString n
  else if n < 1000 then "0" ++ toString n
  else toString n

/-- Python `date.strftime` with the fixed format `%d.%m.%Y` used by the
program. -/
def strftimeDMY (dt : PyDate) : String :=
  pad2 dt.day ++ "." ++ pad2 dt.month ++ "." ++ pad4 dt.year

/-! ## `datetime.strptime(value, "%d.%m.%Y")`

CPython compiles the format into a regex: `%d` is
`3[01]|[12][0-9]|0[1-9]|[1-9]` (one or two digits, value 1..31), `%m` is
`1[0-2]|0[1-9]|[1-9]`, `%Y` is exactly four digits, the dots are
literal, and the whole string must be consumed.  The matched numbers
then go through the `datetime` constructor, which raises `ValueError`
when the day does not exist in the month.  Matching the three
dot-separated pieces against those three component regexes is equivalent
to the positional regex on `.`-separated input.  (CPython's regex `\d`
also accepts non-ASCII Unicode digits; the embedding restricts parsing
to ASCII digits, a sublanguage on which the behaviour agrees.) -/

/-- Numeric value of an ASCII digit character. -/
def digitVal (c : Char) : Nat := c.toNat - 48

/-- The `%d` component regex `3[01]|[12][0-9]|0[1-9]|[1-9]`, as a full
match of one piece, returning the day number. -/
def matchDay (s : String) : Option Nat :=
  match s.data with
  | [c] => if 49 ≤ c.toNat ∧ c.toNat ≤ 57 then some (digitVal c) else none
  | [c1, c2] =>
      if ((c1 = '3' ∧ (c2 = '0' ∨ c2 = '1')) ∨
          ((c1 = '1' ∨ c1 = '2') ∧ isAsciiDigit c2) ∨
          (c1 = '0' ∧ 49 ≤ c2.toNat ∧ c2.toNat ≤ 57))
      then some (digitVal c1 * 10 + digitVal c2) else none
  | _ => none

/-- The `%m` component regex `1[0-2]|0[1-9]|[1-9]`, as a full match of
one piece, returning the month number. -/
def matchMonth (s : String) : Option Nat :=
  match s.data with
  | [c] => if 49 ≤ c.toNat ∧ c.toNat ≤ 57 then some (digitVal c) else none
  | [c1, c2] =>
      if ((c1 = '1' ∧ (c2 = '0' ∨ c2 = '1' ∨ c2 = '2')) ∨
          (c1 = '0' ∧ 49 ≤ c2.toNat ∧ c2.toNat ≤ 57))
      then some (digitVal c1 * 10 + digitVal c2) else none
  | _ => none

/-- The `%Y` component regex: exactly four digits. -/
def matchYear (s : String) : Option Nat :=
  match s.data with
  | [c1, c2, c3, c4] =>
      if isAsciiDigit c1 ∧ isAsciiDigit c2 ∧ isAsciiDigit c3 ∧ isAsciiDigit c4
      then some (((digitVal c1 * 10 + digitVal c2) * 10 + digitVal c3) * 10
                   + digitVal c4)
      else none
  | _ => none

/-- `datetime.strptime(s, "%d.%m.%Y")`, reduced to its date part:
either the parsed date or the `ValueError` the call raises. -/
def strptimeDMY (s : String) : Py PyDate :=
  match splitDots s with
  | [ds, ms, ys] =>
      match matchDay ds, matchMonth ms, matchYear ys with
      | some d, some m, some y =>
          if validYMD y m d then .ok ⟨y, m, d⟩ else .error .valueError
      | _, _, _ => .error .valueError
  | _ => .error .valueError

/-! ## Field classes -/

/-- `Phone(Field)`: wraps the phone string (`self.value`). -/
structure Phone where
  value : String
deriving DecidableEq, Repr

/-- `Phone.__init__`: accepts `value` iff `value.isdigit()` and
`len(value) == 10`, else raises `ValueError` (the `isinstance(value, str)`
test is always true here since every modelled value is a string). -/
def Phone.init (value : String) : Py Phone :=
  if pyIsDigit value && value.length = 10 then .ok ⟨value⟩
  else .error .valueError

/-- `Birthday(Field)`: stores the parsed date (`self.date`) and the
original string (`self.value`). -/
structure Birthday where
  date : PyDate
  value : String
deriving DecidableEq, Repr

/-- `Birthday.__init__`: parses `value` with
`datetime.strptime(value, "%d.%m.%Y")`; on success stores the parsed
date and the original string, on failure raises `ValueError`. -/
def Birthday.init (value : String) : Py Birthday :=
  match strptimeDMY value with
  | .ok d => .ok ⟨d, value⟩
  | .error e => .error e

/-! ## Record

`Name(Field)` is a plain wrapper around the name string with no
validation; the embedding stores the name string directly. -/

/-- `Record`: a contact's name, ordered phone list, optional birthday. -/
structure Record where
  name : String
  phones : List Phone
  birthday : Option Birthday
deriving DecidableEq, Repr

/-- `Record.__init__(name)`: empty phone list, no birthday. -/
def Record.init (name : String) : Record :=
  ⟨name, [], none⟩

/-- `Record.add_phone`: validates via `Phone(...)` and appends; raises
`ValueError` on an invalid phone. -/
def Record.add_phone (r : Record) (phone : String) : Py Record :=
  match Phone.init phone with
  | .ok p => .ok ⟨r.name, r.phones ++ [p], r.birthday⟩
  | .error e => .error e

/-- `Record.remove_phone`: keeps the phones whose value differs. -/
def Record.remove_phone (r : Record) (phone : String) : Record :=
  ⟨r.name, r.phones.filter (fun p => p.value ≠ phone), r.birthday⟩

/-- The loop body of `Record.edit_phone`: each phone whose value equals
`old_phone` has its value overwritten with `new_phone` (no validation of
`new_phone`, and every match is overwritten, not just the first). -/
def editPhones (old_phone new_phone : String) : List Phone → List Phone
  | [] => []
  | p :: ps =>
      (if p.value = old_phone then ⟨new_phone⟩ else p)
        :: editPhones old_phone new_phone ps

/-- `Record.edit_phone`. -/
def Record.edit_phone (r : Record) (old_phone new_phone : String) : Record :=
  ⟨r.name, editPhones old_phone new_phone r.phones, r.birthday⟩

/-- `Record.find_phone`: first phone with the given value, else `None`. -/
def Record.find_phone (r : Record) (phone : String) : Option Phone :=
  r.phones.find? (fun p => p.value = phone)

/-- `Record.add_birthday`: the argument is always a constructed
`Birthday` at every call site, so the `isinstance` branch that raises is
dead; the birthday is overwritten. -/
def Record.add_birthday (r : Record) (b : Birthday) : Record :=
  ⟨r.name, r.phones, some b⟩

/-- `Record.__str__`. -/
def Record.toStr (r : Record) : String :=
  "Contact name: " ++ r.name ++ ", phones: "
    ++ String.intercalate "; " (r.phones.map Phone.value)

/-! ## AddressBook

`AddressBook(UserDict)` holds a `dict` from name to record.  A Python
`dict` is insertion-ordered and assignment to an existing key keeps its
position, so the model is an association list updated in place. -/

/-- The underlying `dict` data. -/
abbrev AddressBook : Type := List (String × Record)

/-- `self.data[k] = v` on a dict: overwrite the first (for a dict, only)
entry with key `k` in place, else append at the end. -/
def dictSet (book : AddressBook) (k : String) (v : Record) : AddressBook :=
  match book with
  | [] => [(k, v)]
  | (k0, v0) :: rest =>
      if k0 = k then (k, v) :: rest else (k0, v0) :: dictSet rest k v

/-- `AddressBook.find` / `self.data.get(name)`. -/
def find (book : AddressBook) (name : String) : Option Record :=
  match book with
  | [] => none
  | (k0, v0) :: rest => if k0 = name then some v0 else find rest name

/-- `AddressBook.add_record`: store under the record's own name. -/
def add_record (book : AddressBook) (r : Record) : AddressBook :=
  dictSet book r.name r

/-- `AddressBook.delete`: drop the entry if present. -/
def delete (book : AddressBook) (name : String) : AddressBook :=
  book.filter (fun e => e.1 ≠ name)

/-! ## `AddressBook.get_upcoming_birthdays`

The source reads `datetime.today().date()`; the embedding passes that
date in as `current_date`.  The two `replace(year=...)` calls can raise
`ValueError` (February 29 mapped into a non-leap year), and the method
has no handler, so the whole call is fallible. -/

/-- One emitted entry of the congratulation list. -/
structure CongratEntry where
  name : String
  congratulation_date : PyDate
deriving DecidableEq, Repr

/-- Lines 85-87 of the source: this year's occurrence of the birthday,
advanced to next year when it has already passed. -/
def birthdayThisYear (current_date birthday : PyDate)
    : Py PyDate := do
  let b1 ← birthday.replaceYear current_date.year
  if dateLt b1 current_date then
    b1.replaceYear (current_date.year + 1)
  else
    pure b1

/-- The body of the `for` loop of `get_upcoming_birthdays` for a single
`(name, record)` item: `none` when the record is skipped, `some entry`
when a congratulation entry is appended. -/
def upcomingEntry (current_date : PyDate) (name : String) (record : Record)
    : Py (Option CongratEntry) :=
  match record.birthday with
  | none => .ok none
  | some bd => do
      let birthday_this_year ← birthdayThisYear current_date bd.date
      let days_to_birthday : Int := dateSub birthday_this_year current_date
      if 0 ≤ days_to_birthday ∧ days_to_birthday < 8 then
        let days : Int :=
          if 5 ≤ birthday_this_year.weekday then
            days_to_birthday + ((7 : Int) - (birthday_this_year.weekday : Int))
          else days_to_birthday
        pure (some ⟨name, addDays current_date days.toNat⟩)
      else
        pure none

/-- The `for` loop of `get_upcoming_birthdays` over the dict items; a
raise on any item aborts the whole call. -/
def upcomingLoop (current_date : PyDate)
    : List (String × Record) → Py (List CongratEntry)
  | [] => .ok []
  | (name, record) :: rest => do
      let e ← upcomingEntry current_date name record
      let tail ← upcomingLoop current_date rest
      pure (e.toList ++ tail)

/-- `AddressBook.get_upcoming_birthdays`, with today's date passed
explicitly. -/
def get_upcoming_birthdays (current_date : PyDate) (book : AddressBook)
    : Py (List CongratEntry) :=
  upcomingLoop current_date book

/-! ## Command handlers

Python mutates `Record` objects in place through the alias stored in the
book; the embedding threads the book and writes the updated record back
at the key under which it was found.  Each handler body returns the
possibly-raised result together with the book state at the moment of
return or raise (mutations before a raise persist, which is what claim
C10 is about). -/

/-- `input_error` decorator: `ValueError`, `IndexError` and `KeyError`
become the three fixed strings; the book state is whatever the body left
behind. -/
def input_error (res : Py String × AddressBook) : String × AddressBook :=
  match res with
  | (.ok s, book) => (s, book)
  | (.error .valueError, book) => ("Give me name and phone please.", book)
  | (.error .indexError, book) => ("Enter contact Name please.", book)
  | (.error .keyError, book) => ("Contact not found", book)

/-- Body of `add_contact` (before the decorator).  `name, phone, *_ =
args` raises `ValueError` on fewer than two arguments; `if phone:` is
Python truthiness, i.e. the phone is appended only when the string is
nonempty; a new record is added to the book before the phone is
validated. -/
def add_contact_body (args : List String) (book : AddressBook)
    : Py String × AddressBook :=
  match args with
  | name :: phone :: _ =>
      match find book name with
      | some record =>
          if phone ≠ "" then
            match record.add_phone phone with
            | .ok r => (.ok "Contact updated.", dictSet book name r)
            | .error e => (.error e, book)
          else (.ok "Contact updated.", book)
      | none =>
          let book1 := add_record book (Record.init name)
          if phone ≠ "" then
            match (Record.init name).add_phone phone with
            | .ok r => (.ok "Contact added.", dictSet book1 name r)
            | .error e => (.error e, book1)
          else (.ok "Contact added.", book1)
  | _ => (.error .valueError, book)

/-- `add_contact` with the `input_error` decorator applied. -/
def add_contact (args : List String) (book : AddressBook)
    : String × AddressBook :=
  input_error (add_contact_body args book)

/-- Body of `change_contact`: `KeyError` on unknown name, `ValueError`
on a record with no phones; otherwise edits the first phone's value (via
`edit_phone`, which rewrites every phone equal to it) unless it already
equals the new one. -/
def change_contact_body (args : List String) (book : AddressBook)
    : Py String × AddressBook :=
  match args with
  | name :: new_phone :: _ =>
      match find book name with
      | none => (.error .keyError, book)
      | some record =>
          match record.phones with
          | [] => (.error .valueError, book)
          | p0 :: _ =>
              let old_phone := p0.value
              if old_phone ≠ new_phone then
                (.ok "Contact updated.",
                  dictSet book name (record.edit_phone old_phone new_phone))
              else
                (.ok "Phone number is already up to date.", book)
  | _ => (.error .valueError, book)

/-- `change_contact` with the `input_error` decorator applied. -/
def change_contact (args : List String) (book : AddressBook)
    : String × AddressBook :=
  input_error (change_contact_body args book)

/-- Body of `show_contact`: `IndexError` unless exactly one argument,
`KeyError` on unknown name, else the record's string. -/
def show_contact_body (args : List String) (book : AddressBook)
    : Py String × AddressBook :=
  match args with
  | [name] =>
      match find book name with
      | some record => (.ok record.toStr, book)
      | none => (.error .keyError, book)
  | _ => (.error .indexError, book)

/-- `show_contact` with the `input_error` decorator applied. -/
def show_contact (args : List String) (book : AddressBook)
    : String × AddressBook :=
  input_error (show_contact_body args book)

/-- `show_all_contacts` (undecorated; it cannot raise). -/
def show_all_contacts (book : AddressBook) : String :=
  if book.isEmpty then "No contacts found"
  else String.intercalate "\n\n" (book.map (fun e => e.2.toStr))

/-- Body of `add_birthday`: like `add_contact`, the record is created
and stored before the date is validated; a bad date re-raises
`ValueError` (with a wrapped message), leaving the new record in the
book with no birthday. -/
def add_birthday_body (args : List String) (book : AddressBook)
    : Py String × AddressBook :=
  match args with
  | name :: birthday_str :: _ =>
      match find book name with
      | some record =>
          match Birthday.init birthday_str with
          | .ok b =>
              (.ok "Contact updated.", dictSet book name (record.add_birthday b))
          | .error _ => (.error .valueError, book)
      | none =>
          let book1 := add_record book (Record.init name)
          match Birthday.init birthday_str with
          | .ok b =>
              (.ok "Contact added.",
                dictSet book1 name ((Record.init name).add_birthday b))
          | .error _ => (.error .valueError, book1)
  | _ => (.error .valueError, book)

/-- `add_birthday` with the `input_error` decorator applied. -/
def add_birthday (args : List String) (book : AddressBook)
    : String × AddressBook :=
  input_error (add_birthday_body args book)

/-- Body of `show_birthday`: `args[0]` raises `IndexError` on an empty
argument list; `KeyError` on unknown name. -/
def show_birthday_body (args : List String) (book : AddressBook)
    : Py String × AddressBook :=
  match args with
  | [] => (.error .indexError, book)
  | name :: _ =>
      match find book name with
      | none => (.error .keyError, book)
      | some record =>
          match record.birthday with
          | some b =>
              (.ok (name ++ "'s birthday is on " ++ b.value), book)
          | none =>
              (.ok ("No birthday information for " ++ name ++ "."), book)

/-- `show_birthday` with the `input_error` decorator applied. -/
def show_birthday (args : List String) (book : AddressBook)
    : String × AddressBook :=
  input_error (show_birthday_body args book)

/-- `next_week_birthday` (undecorated: a raise inside
`get_upcoming_birthdays` propagates out of it uncaught). -/
def next_week_birthday (current_date : PyDate) (book : AddressBook)
    : Py String := do
  let upcoming ← get_upcoming_birthdays current_date book
  if upcoming.isEmpty then
    pure "No birthdays in the next week."
  else
    pure (String.intercalate "\n"
      (upcoming.map (fun item =>
        item.name ++ "'s birthday is on "
          ++ strftimeDMY item.congratulation_date)))

/-- `parse_input`: `cmd, *args = user_input.split()` raises `ValueError`
("not enough values to unpack") when the line is empty or all
whitespace; otherwise lowercases the command token. -/
def parse_input (user_input : String) : Py (String × List String) :=
  match pySplit user_input with
  | [] => .error .valueError
  | cmd :: args => .ok (pyLower cmd, args)

/-! ## One iteration of the `main` loop -/

/-- Outcome of processing one input line against the current book. -/
inductive StepResult where
  | exits (printed : String)
  | output (printed : String) (book : AddressBook)
  | crash (e : PyError)
deriving DecidableEq, Repr

/-- One iteration of the `while True` loop of `main`: parse the line and
dispatch.  `crash` marks an exception that no handler catches, which in
the source kills the process. -/
def processCommand (current_date : PyDate) (user_input : String)
    (book : AddressBook) : StepResult :=
  match parse_input user_input with
  | .error e => .crash e
  | .ok (command, args) =>
      if command = "close" ∨ command = "exit" then .exits "Good bye!"
      else if command = "hello" then .output "How can I help you?" book
      else if command = "add" then
        let r := add_contact args book
        .output r.1 r.2
      else if command = "change" then
        let r := change_contact args book
        .output r.1 r.2
      else if command = "phone" then
        let r := show_contact args book
        .output r.1 r.2
      else if command = "all" then
        .output (show_all_contacts book) book
      else if command = "add-birthday" then
        let r := add_birthday args book
        .output r.1 r.2
      else if command = "show-birthday" then
        let r := show_birthday args book
        .output r.1 r.2
      else if command = "birthdays" then
        match next_week_birthday current_date book with
        | .ok s => .output s book
        | .error e => .crash e
      else .output "Invalid command." book

/-! ## Derived notions used by the theorems -/

/-- Number of entries stored under a given name. -/
def countName (book : AddressBook) (name : String) : Nat :=
  (book.filter (fun e => e.1 = name)).length

/-- The dict invariant: every entry is keyed by its record's own name,
and keys are pairwise distinct (a real `dict` guarantees the latter by
construction; the association-list model states it explicitly). -/
def keyedOk (book : AddressBook) : Prop :=
  (∀ e ∈ book, e.1 = e.2.name) ∧ (book.map Prod.fst).Nodup

instance (book : AddressBook) : Decidable (keyedOk book) := by
  unfold keyedOk; infer_instance

/-- The language `^[0-9]{10}$`: exactly ten ASCII decimal digits. -/
def matchesPhoneRegex (s : String) : Bool :=
  s.length = 10 && s.data.all isAsciiDigit

/-! ## Lemmas about the dict model -/

theorem find_dictSet_self (book : AddressBook) (k : String) (v : Record) :
    find (dictSet book k v) k = some v := by
  induction book with
  | nil => simp [dictSet, find]
  | cons e rest ih =>
      by_cases h : e.1 = k
      · simp [dictSet, h, find]
      · simp [dictSet, h, find, ih]

theorem find_dictSet_other (book : AddressBook) (k k0 : String) (v : Record)
    (h : k0 ≠ k) : find (dictSet book k v) k0 = find book k0 := by
  have hk0 : ¬ k = k0 := fun hh => h hh.symm
  induction book with
  | nil => simp [dictSet, find, hk0]
  | cons e rest ih =>
      by_cases he : e.1 = k
      · have he0 : ¬ e.1 = k0 := by rw [he]; exact hk0
        simp [dictSet, find, he, hk0, he0]
      · by_cases he0 : e.1 = k0
        · simp [dictSet, find, he, he0, h]
        · simp [dictSet, find, he, he0, ih]

theorem dictSet_dictSet (book : AddressBook) (k : String) (v w : Record) :
    dictSet (dictSet book k v) k w = dictSet book k w := by
  induction book with
  | nil => simp [dictSet]
  | cons e rest ih =>
      by_cases h : e.1 = k
      · simp [dictSet, h]
      · simp [dictSet, h, ih]

theorem countName_zero_of_find_none (book : AddressBook) (k : String)
    (h : find book k = none) : countName book k = 0 := by
  induction book with
  | nil => simp [countName]
  | cons e rest ih =>
      by_cases he : e.1 = k
      · simp [find, he] at h
      · simp [find, he] at h
        simp [countName, List.filter, he]
        simpa [countName] using ih h

theorem countName_dictSet_of_zero (book : AddressBook) (k : String)
    (v : Record) (h : countName book k = 0) :
    countName (dictSet book k v) k = 1 := by
  induction book with
  | nil => simp [dictSet, countName, List.filter]
  | cons e rest ih =>
      by_cases he : e.1 = k
      · simp [countName, List.filter, he] at h
      · simp [countName, List.filter, he] at h
        simp [dictSet, he, countName, List.filter]
        simpa [countName] using ih (by simpa [countName] using h)

theorem length_dictSet_of_find_some (book : AddressBook) (k : String)
    (v r0 : Record) (h : find book k = some r0) :
    (dictSet book k v).length = book.length := by
  induction book with
  | nil => simp [find] at h
  | cons e rest ih =>
      by_cases he : e.1 = k
      · simp [dictSet, he]
      · simp [find, he] at h
        simp [dictSet, he, ih h]

theorem find_mem (book : AddressBook) (k : String) (r : Record)
    (h : find book k = some r) : (k, r) ∈ book := by
  induction book with
  | nil => simp [find] at h
  | cons e rest ih =>
      by_cases he : e.1 = k
      · simp [find, he] at h
        have he2 : e = (k, r) := by
          obtain ⟨a, b⟩ := e
          simp at he h ⊢
          exact ⟨he, h⟩
        rw [he2]
        exact List.mem_cons_self _ _
      · simp [find, he] at h
        exact List.mem_cons_of_mem _ (ih h)

theorem mem_dictSet (book : AddressBook) (k : String) (v : Record)
    (x : String × Record) (hx : x ∈ dictSet book k v) :
    x = (k, v) ∨ x ∈ book := by
  induction book with
  | nil => simpa [dictSet] using hx
  | cons e rest ih =>
      by_cases he : e.1 = k
      · simp [dictSet, he] at hx
        rcases hx with hx | hx
        · left; simp [hx]
        · right; exact List.mem_cons_of_mem _ hx
      · simp [dictSet, he] at hx
        rcases hx with hx | hx
        · right; simp [hx]
        · rcases ih hx with hh | hh
          · left; exact hh
          · right; exact List.mem_cons_of_mem _ hh

theorem keys_dictSet (book : AddressBook) (k : String) (v : Record) :
    (dictSet book k v).map Prod.fst =
      if k ∈ book.map Prod.fst then book.map Prod.fst
      else book.map Prod.fst ++ [k] := by
  induction book with
  | nil => simp [dictSet]
  | cons e rest ih =>
      by_cases he : e.1 = k
      · simp [dictSet, he]
      · by_cases hk : k ∈ rest.map Prod.fst
        · simp [dictSet, he, ih, hk, Ne.symm he]
        · simp [dictSet, he, ih, hk, Ne.symm he]

theorem keyedOk_dictSet (book : AddressBook) (k : String) (v : Record)
    (hb : keyedOk book) (hv : k = v.name) : keyedOk (dictSet book k v) := by
  obtain ⟨hkeys, hnd⟩ := hb
  refine ⟨?_, ?_⟩
  · intro x hx
    rcases mem_dictSet book k v x hx with hh | hh
    · simp [hh, hv]
    · exact hkeys x hh
  · rw [keys_dictSet]
    by_cases hk : k ∈ book.map Prod.fst
    · simpa [hk] using hnd
    · simpa [hk, List.nodup_append] using hnd

theorem keyedOk_delete (book : AddressBook) (name : String)
    (hb : keyedOk book) : keyedOk (delete book name) := by
  obtain ⟨hkeys, hnd⟩ := hb
  refine ⟨?_, ?_⟩
  · intro x hx
    exact hkeys x (List.mem_of_mem_filter hx)
  · exact List.Nodup.sublist
      (List.Sublist.map Prod.fst (List.filter_sublist book)) hnd

theorem keyedOk_find (book : AddressBook) (k : String) (r : Record)
    (hb : keyedOk book) (h : find book k = some r) : k = r.name :=
  hb.1 (k, r) (find_mem book k r h)

/-! ## Calendar lemmas -/

theorem daysInMonth_pos (y m : Nat) : 1 ≤ daysInMonth y m := by
  unfold daysInMonth
  split
  · split <;> omega
  · split <;> omega

theorem daysBeforeMonth_succ (y m : Nat) (h : 1 ≤ m) :
    daysBeforeMonth y (m + 1) = daysBeforeMonth y m + daysInMonth y m := by
  obtain ⟨k, rfl⟩ : ∃ k, m = k + 1 := ⟨m - 1, by omega⟩
  rfl

theorem daysBeforeMonth_twelve (y : Nat) :
    daysBeforeMonth y 12 = 334 + (if isLeap y then 1 else 0) := by
  have e : daysBeforeMonth y 12 =
      0 + 31 + (if isLeap y then 29 else 28) + 31 + 30 + 31 + 30 + 31 + 31
        + 30 + 31 + 30 := by
    simp only [show (12 : Nat) = 10 + 2 from rfl, daysBeforeMonth]
    norm_num [daysBeforeMonth, daysInMonth]
  rw [e]
  by_cases h : isLeap y <;> simp [h]

theorem toOrdinal_mk (y m d : Nat) :
    toOrdinal ⟨y, m, d⟩ = daysBeforeYear y + daysBeforeMonth y m + d := rfl

theorem daysBeforeYear_succ (y : Nat) (hy : 1 ≤ y) :
    daysBeforeYear (y + 1) =
      daysBeforeYear y + 365 + (if isLeap y then 1 else 0) := by
  obtain ⟨k, rfl⟩ : ∃ k, y = k + 1 := ⟨y - 1, by omega⟩
  have e1 : daysBeforeYear (k + 1 + 1) =
      (k + 1) * 365 + (k + 1) / 4 - (k + 1) / 100 + (k + 1) / 400 := rfl
  have e2 : daysBeforeYear (k + 1) =
      k * 365 + k / 4 - k / 100 + k / 400 := rfl
  rw [e1, e2]
  by_cases hl : isLeap (k + 1) = true
  · rw [if_pos hl]
    simp [isLeap] at hl
    omega
  · rw [if_neg hl]
    simp [isLeap] at hl
    omega

theorem toOrdinal_nextDay (dt : PyDate) (h : dt.ok) :
    toOrdinal (nextDay dt) = toOrdinal dt + 1 := by
  obtain ⟨hy, hm1, hm2, hd1, hd2⟩ := h
  obtain ⟨y, m, d⟩ := dt
  simp only at hy hm1 hm2 hd1 hd2
  unfold nextDay
  dsimp only
  by_cases hlt : d < daysInMonth y m
  · rw [if_pos hlt, toOrdinal_mk, toOrdinal_mk]
    omega
  · rw [if_neg hlt]
    have hd : d = daysInMonth y m := by omega
    by_cases hm : m < 12
    · rw [if_pos hm, toOrdinal_mk, toOrdinal_mk,
        daysBeforeMonth_succ y m hm1]
      omega
    · rw [if_neg hm]
      have hm12 : m = 12 := by omega
      subst hm12
      have hd31 : d = 31 := hd
      subst hd31
      rw [toOrdinal_mk, toOrdinal_mk,
        daysBeforeYear_succ y hy, daysBeforeMonth_twelve y]
      have hdbm1 : daysBeforeMonth (y + 1) 1 = 0 := rfl
      rw [hdbm1]
      by_cases hl : isLeap y = true
      · rw [if_pos hl]
      · rw [if_neg hl]

theorem nextDay_ok (dt : PyDate) (h : dt.ok) : (nextDay dt).ok := by
  obtain ⟨hy, hm1, hm2, hd1, hd2⟩ := h
  obtain ⟨y, m, d⟩ := dt
  simp only at hy hm1 hm2 hd1 hd2
  unfold nextDay
  dsimp only
  by_cases hlt : d < daysInMonth y m
  · rw [if_pos hlt]
    refine ⟨hy, hm1, hm2, ?_, ?_⟩
    · show 1 ≤ d + 1
      omega
    · show d + 1 ≤ daysInMonth y m
      omega
  · rw [if_neg hlt]
    by_cases hm : m < 12
    · rw [if_pos hm]
      refine ⟨hy, ?_, ?_, ?_, ?_⟩
      · show 1 ≤ m + 1
        omega
      · show m + 1 ≤ 12
        omega
      · show 1 ≤ 1
        omega
      · show 1 ≤ daysInMonth y (m + 1)
        exact daysInMonth_pos y (m + 1)
    · rw [if_neg hm]
      refine ⟨?_, ?_, ?_, ?_, ?_⟩
      · show 1 ≤ y + 1
        omega
      · show 1 ≤ 1
        omega
      · show 1 ≤ 12
        omega
      · show 1 ≤ 1
        omega
      · show 1 ≤ daysInMonth (y + 1) 1
        exact daysInMonth_pos (y + 1) 1

theorem addDays_ok_toOrdinal (dt : PyDate) (h : dt.ok) (n : Nat) :
    (addDays dt n).ok ∧ toOrdinal (addDays dt n) = toOrdinal dt + n := by
  induction n with
  | zero => exact ⟨h, rfl⟩
  | succ n ih =>
      have e : addDays dt (n + 1) = nextDay (addDays dt n) := rfl
      rw [e]
      refine ⟨nextDay_ok _ ih.1, ?_⟩
      rw [toOrdinal_nextDay _ ih.1, ih.2]
      omega

/-! ## Lemmas about phone validation and phone editing -/

theorem string_length_data (s : String) : s.length = s.data.length := rfl

theorem pyIsDigitChar_of_ascii (c : Char) (h : isAsciiDigit c = true) :
    pyIsDigitChar c = true := by
  unfold pyIsDigitChar
  rw [h]
  rfl

theorem phone_init_iff (raw : String) :
    Phone.init raw = .ok ⟨raw⟩ ↔ (pyIsDigit raw = true ∧ raw.length = 10) := by
  unfold Phone.init
  split
  next h =>
    simp only [Bool.and_eq_true, decide_eq_true_eq] at h
    simp [h]
  next h =>
    simp only [Bool.and_eq_true, decide_eq_true_eq, not_and] at h
    constructor
    · intro hc
      simp at hc
    · intro hr
      exact absurd hr.2 (h hr.1)

theorem editPhones_eq_map (old_phone new_phone : String) (l : List Phone) :
    editPhones old_phone new_phone l =
      l.map (fun p => if p.value = old_phone then ⟨new_phone⟩ else p) := by
  induction l with
  | nil => rfl
  | cons p ps ih => simp [editPhones, ih]

theorem editPhones_no_match (old_phone new_phone : String) (l : List Phone)
    (h : ∀ p ∈ l, p.value ≠ old_phone) :
    editPhones old_phone new_phone l = l := by
  induction l with
  | nil => rfl
  | cons p ps ih =>
      unfold editPhones
      rw [if_neg (h p (List.mem_cons_self _ _)),
        ih (fun q hq => h q (List.mem_cons_of_mem _ hq))]

/-! ## The claims -/

/-- C1: the spec states that processing one command never raises an
uncaught exception — every error below the dispatch boundary becomes a
fixed user-facing string and the loop continues.  The code violates this
at exactly the inputs the claim singles out: an empty input line makes
`parse_input` raise an uncaught `ValueError` (unpacking an empty split),
and the `birthdays` command raises an uncaught `ValueError` out of the
undecorated `get_upcoming_birthdays` when a stored birthday is
February 29 of a leap year and the current year (here 2025) is not a
leap year.  Both evaluations end in `crash`, which in the source kills
the process. -/
theorem C1_uncaught_crash :
    processCommand ⟨2025, 6, 10⟩ "" [] = .crash .valueError ∧
    processCommand ⟨2025, 6, 10⟩ "birthdays"
        [("A", ⟨"A", [], some ⟨⟨2024, 2, 29⟩, "29.02.2024"⟩⟩)]
      = .crash .valueError := by
  exact ⟨rfl, rfl⟩

/-- C2 counterexample: the claim says construction succeeds only for
strings of ASCII digits `0`-`9`.  Python `str.isdigit` also accepts
other Unicode digit characters: ten SUPERSCRIPT TWO characters (U+00B2)
pass `Phone.__init__` although the string is not in `^[0-9]{10}$`. -/
theorem C2_counterexample :
    Phone.init "²²²²²²²²²²" = .ok ⟨"²²²²²²²²²²"⟩ ∧
    matchesPhoneRegex "²²²²²²²²²²" = false := by
  exact ⟨rfl, rfl⟩

/-- C2 (amended): construction always either succeeds (storing the raw
string unchanged) or raises `ValueError`; it succeeds iff the string
passes Python `str.isdigit` (nonempty, all digit characters — including
non-ASCII digits) and has length exactly 10.  Restricted to ASCII
strings this is exactly the language `^[0-9]{10}$`: shorter, longer or
non-digit ASCII strings fail. -/
theorem C2_phone_validation (raw : String) :
    (Phone.init raw = .ok ⟨raw⟩ ∨ Phone.init raw = .error .valueError) ∧
    (Phone.init raw = .ok ⟨raw⟩ ↔ (pyIsDigit raw = true ∧ raw.length = 10)) ∧
    (raw.data.all isAsciiDigit = true →
      (Phone.init raw = .ok ⟨raw⟩ ↔ matchesPhoneRegex raw = true)) := by
  refine ⟨?_, phone_init_iff raw, ?_⟩
  · unfold Phone.init
    split
    · exact Or.inl rfl
    · exact Or.inr rfl
  · intro hascii
    rw [phone_init_iff]
    unfold matchesPhoneRegex pyIsDigit
    constructor
    · rintro ⟨h1, h2⟩
      simp only [Bool.and_eq_true, decide_eq_true_eq]
      exact ⟨h2, hascii⟩
    · intro h
      simp only [Bool.and_eq_true, decide_eq_true_eq] at h
      obtain ⟨hlen, _⟩ := h
      refine ⟨?_, hlen⟩
      have hne : raw.data.isEmpty = false := by
        rw [string_length_data] at hlen
        cases hd : raw.data with
        | nil => rw [hd] at hlen; simp at hlen
        | cons c cs => rfl
      rw [hne]
      simp only [Bool.not_false, Bool.true_and]
      exact List.all_eq_true.mpr
        (fun c hc => pyIsDigitChar_of_ascii c (List.all_eq_true.mp hascii c hc))

/-- C2 witness: a concrete ASCII string of ten digits is accepted. -/
theorem C2_phone_validation_witness :
    Phone.init "0123456789" = .ok ⟨"0123456789"⟩ :=
  ((C2_phone_validation "0123456789").2.2 (by decide)).mpr (by decide)

/-- C3 counterexample: the claim says only the first phone equal to
`oldRaw` is replaced and the new value is validated.  With two phones
both equal to `1111111111`, `edit_phone` rewrites the second one too;
and a replacement value that fails phone validation is installed without
any error. -/
theorem C3_counterexample :
    (Record.edit_phone ⟨"A", [⟨"1111111111"⟩, ⟨"1111111111"⟩], none⟩
        "1111111111" "2222222222").phones
      = [⟨"2222222222"⟩, ⟨"2222222222"⟩] ∧
    (Record.edit_phone ⟨"A", [⟨"1111111111"⟩], none⟩
        "1111111111" "not ten digits").phones
      = [⟨"not ten digits"⟩] ∧
    Phone.init "not ten digits" = .error .valueError := by
  exact ⟨rfl, rfl, rfl⟩

/-- C3 (amended): `editPhone(oldRaw, newRaw)` keeps the name, birthday
and phone count, rewrites the value of every phone equal to `oldRaw` to
`newRaw` — not just the first, and without validating `newRaw` — leaves
every other phone unchanged, and when no phone matches it is a silent
no-op raising no error. -/
theorem C3_edit_phone (r : Record) (old_phone new_phone : String) :
    (r.edit_phone old_phone new_phone).name = r.name ∧
    (r.edit_phone old_phone new_phone).birthday = r.birthday ∧
    (r.edit_phone old_phone new_phone).phones.length = r.phones.length ∧
    (∀ i : Nat,
      (r.edit_phone old_phone new_phone).phones[i]? =
        (r.phones[i]?).map
          (fun p => if p.value = old_phone then ⟨new_phone⟩ else p)) ∧
    ((∀ p ∈ r.phones, p.value ≠ old_phone) →
      r.edit_phone old_phone new_phone = r) := by
  refine ⟨rfl, rfl, ?_, ?_, ?_⟩
  · unfold Record.edit_phone
    rw [editPhones_eq_map]
    simp
  · intro i
    unfold Record.edit_phone
    rw [editPhones_eq_map]
    simp
  · intro hno
    obtain ⟨n, ph, bd⟩ := r
    unfold Record.edit_phone
    simp only
    rw [editPhones_no_match _ _ _ hno]

/-- C3 witness: on a record whose single phone does not match, edit is
the identity. -/
theorem C3_edit_phone_witness :
    Record.edit_phone ⟨"A", [⟨"1234567890"⟩], none⟩ "0000000000" "1111111111"
      = ⟨"A", [⟨"1234567890"⟩], none⟩ :=
  (C3_edit_phone ⟨"A", [⟨"1234567890"⟩], none⟩ "0000000000" "1111111111").2.2.2.2
    (by decide)

/-- C6: on a name that is not in the book, `change_contact` raises
`KeyError` (the spec's `NotFoundError` class, rendered by the decorator
as `"Contact not found"`); on a record with no phones it raises
`ValueError` (the spec's `ValidationError` class, rendered as
`"Give me name and phone please."`); in both cases the book is returned
unchanged. -/
theorem C6_change_errors (name new_phone : String) (rest : List String)
    (book : AddressBook) :
    (find book name = none →
      change_contact_body (name :: new_phone :: rest) book
          = (.error .keyError, book) ∧
      change_contact (name :: new_phone :: rest) book
          = ("Contact not found", book)) ∧
    (∀ r, find book name = some r → r.phones = [] →
      change_contact_body (name :: new_phone :: rest) book
          = (.error .valueError, book) ∧
      change_contact (name :: new_phone :: rest) book
          = ("Give me name and phone please.", book)) := by
  constructor
  · intro h
    unfold change_contact change_contact_body
    dsimp only
    rw [h]
    exact ⟨rfl, rfl⟩
  · intro r h hph
    unfold change_contact change_contact_body
    dsimp only
    rw [h]
    dsimp only
    rw [hph]
    exact ⟨rfl, rfl⟩

/-- C6 witness: both failure modes on concrete books. -/
theorem C6_change_errors_witness :
    change_contact ["Bob", "1234567890"] [("Alice", Record.init "Alice")]
        = ("Contact not found", [("Alice", Record.init "Alice")]) ∧
    change_contact ["Alice", "1234567890"] [("Alice", Record.init "Alice")]
        = ("Give me name and phone please.",
            [("Alice", Record.init "Alice")]) :=
  ⟨((C6_change_errors "Bob" "1234567890" [] _).1 (by decide)).2,
   ((C6_change_errors "Alice" "1234567890" [] _).2 (Record.init "Alice")
      (by decide) rfl).2⟩

/-- C8: `Birthday` construction round-trips on display: whenever
construction succeeds, the stored display string is exactly the raw
input and the stored structured date is its parse under `%d.%m.%Y`. -/
theorem C8_birthday_roundtrip (raw : String) (b : Birthday)
    (h : Birthday.init raw = .ok b) :
    b.value = raw ∧ strptimeDMY raw = .ok b.date := by
  unfold Birthday.init at h
  cases hs : strptimeDMY raw with
  | ok d =>
      rw [hs] at h
      simp only [Except.ok.injEq] at h
      subst h
      exact ⟨rfl, rfl⟩
  | error e =>
      rw [hs] at h
      simp at h

/-- C8 witness: a concrete valid date string. -/
theorem C8_birthday_roundtrip_witness :
    (⟨⟨2024, 6, 15⟩, "15.06.2024"⟩ : Birthday).value = "15.06.2024" ∧
    strptimeDMY "15.06.2024" = .ok (⟨⟨2024, 6, 15⟩, "15.06.2024"⟩ : Birthday).date :=
  C8_birthday_roundtrip "15.06.2024" ⟨⟨2024, 6, 15⟩, "15.06.2024"⟩ rfl

/-- C10 counterexample: the claim quantifies over every phone string
failing validation and says `add` then returns an error string.  The
empty string fails phone validation, but `if phone:` is falsy on it, so
`add` returns the success string `"Contact added."` — while still
leaving the phoneless record in the book. -/
theorem C10_counterexample :
    Phone.init "" = .error .valueError ∧
    find ([] : AddressBook) "Alice" = none ∧
    add_contact ["Alice", ""] []
      = ("Contact added.", [("Alice", Record.init "Alice")]) := by
  exact ⟨rfl, rfl, rfl⟩

/-- C10 (amended): for a name not in the book and a nonempty phone
string failing validation, `add` returns the `ValueError` message yet
leaves the book changed: it now holds a record under that name with an
empty phone list.  (For the empty phone string the book is changed the
same way but the reply is the success string `"Contact added."`.)
Analogously `add-birthday` with a new name and an invalid date string
returns the `ValueError` message and leaves a record with no birthday
and no phones. -/
theorem C10_nonatomic_add (name phone : String) (book : AddressBook)
    (h0 : find book name = none) (hne : phone ≠ "")
    (hbad : Phone.init phone = .error .valueError) :
    add_contact [name, phone] book
      = ("Give me name and phone please.",
          dictSet book name (Record.init name)) ∧
    find (add_contact [name, phone] book).2 name = some (Record.init name) ∧
    (Record.init name).phones = [] ∧
    (∀ bstr, strptimeDMY bstr = .error .valueError →
      add_birthday [name, bstr] book
        = ("Give me name and phone please.",
            dictSet book name (Record.init name)) ∧
      (Record.init name).birthday = none) := by
  have hmain : add_contact [name, phone] book
      = ("Give me name and phone please.",
          dictSet book name (Record.init name)) := by
    unfold add_contact add_contact_body
    dsimp only
    rw [h0]
    dsimp only
    rw [if_pos hne]
    unfold Record.add_phone
    rw [hbad]
    simp [input_error, add_record, Record.init]
  refine ⟨hmain, ?_, rfl, ?_⟩
  · rw [hmain]
    exact find_dictSet_self book name (Record.init name)
  · intro bstr hb
    refine ⟨?_, rfl⟩
    unfold add_birthday add_birthday_body
    dsimp only
    rw [h0]
    unfold Birthday.init
    rw [hb]
    simp [input_error, add_record, Record.init]

/-- A string accepted by phone validation is nonempty (so Python's
`if phone:` truthiness test passes on it). -/
theorem phone_ok_ne_empty (p : String) (h : Phone.init p = .ok ⟨p⟩) :
    p ≠ "" := by
  intro he
  subst he
  simp [Phone.init, pyIsDigit] at h

/-- C7: invoking `add` twice with the same (previously absent) name and
valid phones creates no second record: the first call answers
`"Contact added."`, the second `"Contact updated."`, and afterwards the
book holds exactly one record under that name, with both phones
appended in order. -/
theorem C7_add_twice (name p1 p2 : String) (book : AddressBook)
    (h0 : find book name = none)
    (h1 : Phone.init p1 = .ok ⟨p1⟩) (h2 : Phone.init p2 = .ok ⟨p2⟩) :
    (add_contact [name, p1] book).1 = "Contact added." ∧
    (add_contact [name, p2] (add_contact [name, p1] book).2).1
      = "Contact updated." ∧
    countName (add_contact [name, p2] (add_contact [name, p1] book).2).2 name
      = 1 ∧
    find (add_contact [name, p2] (add_contact [name, p1] book).2).2 name
      = some ⟨name, [⟨p1⟩, ⟨p2⟩], none⟩ := by
  have hne1 : p1 ≠ "" := phone_ok_ne_empty p1 h1
  have hne2 : p2 ≠ "" := phone_ok_ne_empty p2 h2
  have step1 : add_contact [name, p1] book
      = ("Contact added.", dictSet book name ⟨name, [⟨p1⟩], none⟩) := by
    unfold add_contact add_contact_body
    dsimp only
    rw [h0]
    dsimp only
    rw [if_pos hne1]
    unfold Record.add_phone
    rw [h1]
    simp [input_error, add_record, Record.init, dictSet_dictSet]
  have hf1 : find (dictSet book name ⟨name, [⟨p1⟩], none⟩) name
      = some ⟨name, [⟨p1⟩], none⟩ := find_dictSet_self book name _
  have step2 : add_contact [name, p2] (dictSet book name ⟨name, [⟨p1⟩], none⟩)
      = ("Contact updated.", dictSet book name ⟨name, [⟨p1⟩, ⟨p2⟩], none⟩) := by
    unfold add_contact add_contact_body
    dsimp only
    rw [hf1]
    dsimp only
    rw [if_pos hne2]
    unfold Record.add_phone
    rw [h2]
    simp [input_error, dictSet_dictSet]
  rw [step1]
  dsimp only
  rw [step2]
  refine ⟨rfl, rfl, ?_, find_dictSet_self book name _⟩
  exact countName_dictSet_of_zero book name _
    (countName_zero_of_find_none book name h0)

/-- C7 witness: concrete double add on the empty book. -/
theorem C7_add_twice_witness :
    (add_contact ["Alice", "1234567890"] []).1 = "Contact added." ∧
    (add_contact ["Alice", "1234567899"]
        (add_contact ["Alice", "1234567890"] []).2).1 = "Contact updated." ∧
    countName (add_contact ["Alice", "1234567899"]
        (add_contact ["Alice", "1234567890"] []).2).2 "Alice" = 1 ∧
    find (add_contact ["Alice", "1234567899"]
        (add_contact ["Alice", "1234567890"] []).2).2 "Alice"
      = some ⟨"Alice", [⟨"1234567890"⟩, ⟨"1234567899"⟩], none⟩ :=
  C7_add_twice "Alice" "1234567890" "1234567899" [] rfl rfl rfl

/-- C10 witness: a concrete new name with a concrete invalid phone and
a concrete invalid date. -/
theorem C10_nonatomic_add_witness :
    add_contact ["Alice", "abc"] []
      = ("Give me name and phone please.",
          [("Alice", Record.init "Alice")]) ∧
    add_birthday ["Alice", "31.31.2024"] []
      = ("Give me name and phone please.",
          [("Alice", Record.init "Alice")]) := by
  have h := C10_nonatomic_add "Alice" "abc" [] rfl (by decide) rfl
  exact ⟨h.1, (h.2.2.2 "31.31.2024" rfl).1⟩

/-! ## Invariant preservation (C9) -/

theorem input_error_snd (r : Py String × AddressBook) :
    (input_error r).2 = r.2 := by
  rcases r with ⟨res, b⟩
  cases res with
  | ok s => rfl
  | error e => cases e <;> rfl

theorem add_phone_name (r0 r : Record) (phone : String)
    (h : r0.add_phone phone = .ok r) : r.name = r0.name := by
  unfold Record.add_phone at h
  cases hpi : Phone.init phone with
  | ok p =>
      rw [hpi] at h
      simp only [Except.ok.injEq] at h
      rw [← h]
  | error e =>
      rw [hpi] at h
      simp at h

theorem add_contact_keyedOk (args : List String) (book : AddressBook)
    (h : keyedOk book) : keyedOk (add_contact args book).2 := by
  rcases args with _ | ⟨name, _ | ⟨phone, rest⟩⟩
  · simpa [add_contact, add_contact_body, input_error] using h
  · simpa [add_contact, add_contact_body, input_error] using h
  · unfold add_contact add_contact_body
    dsimp only
    cases hf : find book name with
    | some record =>
        dsimp only
        by_cases hp : phone ≠ ""
        · rw [if_pos hp]
          cases hadd : record.add_phone phone with
          | ok r =>
              dsimp only
              rw [input_error_snd]
              exact keyedOk_dictSet book name r h
                (by rw [add_phone_name record r phone hadd]
                    exact keyedOk_find book name record h hf)
          | error e =>
              dsimp only
              rw [input_error_snd]
              exact h
        · rw [if_neg hp]
          rw [input_error_snd]
          exact h
    | none =>
        dsimp only
        have hbase : keyedOk (add_record book (Record.init name)) :=
          keyedOk_dictSet book name (Record.init name) h rfl
        by_cases hp : phone ≠ ""
        · rw [if_pos hp]
          cases hadd : (Record.init name).add_phone phone with
          | ok r =>
              dsimp only
              rw [input_error_snd]
              exact keyedOk_dictSet _ name r hbase
                (by rw [add_phone_name _ r phone hadd]; rfl)
          | error e =>
              dsimp only
              rw [input_error_snd]
              exact hbase
        · rw [if_neg hp]
          rw [input_error_snd]
          exact hbase

theorem change_contact_keyedOk (args : List String) (book : AddressBook)
    (h : keyedOk book) : keyedOk (change_contact args book).2 := by
  rcases args with _ | ⟨name, _ | ⟨new_phone, rest⟩⟩
  · simpa [change_contact, change_contact_body, input_error] using h
  · simpa [change_contact, change_contact_body, input_error] using h
  · unfold change_contact change_contact_body
    dsimp only
    cases hf : find book name with
    | none =>
        dsimp only
        rw [input_error_snd]
        exact h
    | some record =>
        dsimp only
        cases hph : record.phones with
        | nil =>
            dsimp only
            rw [input_error_snd]
            exact h
        | cons p0 ps =>
            dsimp only
            by_cases hne : p0.value ≠ new_phone
            · rw [if_pos hne]
              rw [input_error_snd]
              exact keyedOk_dictSet book name _ h
                (keyedOk_find book name record h hf)
            · rw [if_neg hne]
              rw [input_error_snd]
              exact h

theorem add_birthday_keyedOk (args : List String) (book : AddressBook)
    (h : keyedOk book) : keyedOk (add_birthday args book).2 := by
  rcases args with _ | ⟨name, _ | ⟨bstr, rest⟩⟩
  · simpa [add_birthday, add_birthday_body, input_error] using h
  · simpa [add_birthday, add_birthday_body, input_error] using h
  · unfold add_birthday add_birthday_body
    dsimp only
    cases hf : find book name with
    | some record =>
        dsimp only
        cases hb : Birthday.init bstr with
        | ok b =>
            dsimp only
            rw [input_error_snd]
            exact keyedOk_dictSet book name _ h
              (keyedOk_find book name record h hf)
        | error e =>
            dsimp only
            rw [input_error_snd]
            exact h
    | none =>
        dsimp only
        have hbase : keyedOk (add_record book (Record.init name)) :=
          keyedOk_dictSet book name (Record.init name) h rfl
        cases hb : Birthday.init bstr with
        | ok b =>
            dsimp only
            rw [input_error_snd]
            exact keyedOk_dictSet _ name _ hbase rfl
        | error e =>
            dsimp only
            rw [input_error_snd]
            exact hbase

theorem show_contact_snd (args : List String) (book : AddressBook) :
    (show_contact args book).2 = book := by
  unfold show_contact show_contact_body
  rcases args with _ | ⟨name, _ | ⟨b, rest⟩⟩
  · rw [input_error_snd]
  · dsimp only
    cases find book name <;> rw [input_error_snd]
  · rw [input_error_snd]

theorem show_birthday_snd (args : List String) (book : AddressBook) :
    (show_birthday args book).2 = book := by
  unfold show_birthday show_birthday_body
  rcases args with _ | ⟨name, rest⟩
  · rw [input_error_snd]
  · dsimp only
    cases find book name with
    | none => rfl
    | some record =>
        dsimp only
        cases record.birthday with
        | none => rfl
        | some b => rfl

/-- C9: every address-book operation — `add_record`, `find`, `delete`
and the command handlers built on them — preserves the invariant that
the book holds at most one record per name (pairwise-distinct keys) and
that every stored record is keyed by its own name; and `add_record`
with an existing name overwrites in place: lookup afterwards yields the
new record and the number of entries is unchanged. -/
theorem C9_book_invariant (book : AddressBook) (h : keyedOk book) :
    (∀ r, keyedOk (add_record book r)) ∧
    (∀ n, keyedOk (delete book n)) ∧
    (∀ args, keyedOk (add_contact args book).2) ∧
    (∀ args, keyedOk (change_contact args book).2) ∧
    (∀ args, keyedOk (add_birthday args book).2) ∧
    (∀ args, keyedOk (show_contact args book).2) ∧
    (∀ args, keyedOk (show_birthday args book).2) ∧
    (∀ r r0, find book r.name = some r0 →
      find (add_record book r) r.name = some r ∧
      (add_record book r).length = book.length) := by
  refine ⟨?_, ?_, ?_, ?_, ?_, ?_, ?_, ?_⟩
  · intro r
    exact keyedOk_dictSet book r.name r h rfl
  · intro n
    exact keyedOk_delete book n h
  · intro args
    exact add_contact_keyedOk args book h
  · intro args
    exact change_contact_keyedOk args book h
  · intro args
    exact add_birthday_keyedOk args book h
  · intro args
    rw [show_contact_snd]
    exact h
  · intro args
    rw [show_birthday_snd]
    exact h
  · intro r r0 hf
    exact ⟨find_dictSet_self book r.name r,
      length_dictSet_of_find_some book r.name r r0 hf⟩

/-- C9 witness: the invariant after an `add` on a concrete well-formed
book. -/
theorem C9_book_invariant_witness :
    keyedOk (add_contact ["Alice", "1234567890"]
      [("Bob", Record.init "Bob")]).2 :=
  (C9_book_invariant [("Bob", Record.init "Bob")] (by decide)).2.2.1
    ["Alice", "1234567890"]

/-! ## The birthday window and the weekend shift (C4, C5) -/

theorem py_bind_ok {α β : Type} (a : α) (f : α → Py β) :
    (Except.ok a >>= f) = f a := rfl

theorem py_bind_error {α β : Type} (e : PyError) (f : α → Py β) :
    ((Except.error e : Py α) >>= f) = .error e := rfl

/-- C4: for a record whose adjusted this-year birthday `bty` passes the
window test and falls on Saturday or Sunday (weekday ≥ 5, Monday = 0),
the emitted congratulation date is `today + (daysToBirthday +
(7 - weekday))` — the offset grows by `(7 - weekday)` days — and that
date is exactly the Monday following `bty`: its weekday is 0 and its
ordinal is `toOrdinal bty + (7 - weekday)`. -/
theorem C4_weekend_shift (current_date : PyDate) (hok : current_date.ok)
    (name : String) (r : Record) (bd : Birthday) (bty : PyDate)
    (hb : r.birthday = some bd)
    (hty : birthdayThisYear current_date bd.date = .ok bty)
    (h0 : 0 ≤ dateSub bty current_date) (h8 : dateSub bty current_date < 8)
    (hwk : 5 ≤ bty.weekday) :
    upcomingEntry current_date name r
      = .ok (some ⟨name, addDays current_date
          ((dateSub bty current_date
            + ((7 : Int) - (bty.weekday : Int))).toNat)⟩) ∧
    (addDays current_date
        ((dateSub bty current_date
          + ((7 : Int) - (bty.weekday : Int))).toNat)).weekday = 0 ∧
    toOrdinal (addDays current_date
        ((dateSub bty current_date
          + ((7 : Int) - (bty.weekday : Int))).toNat))
      = toOrdinal bty + (7 - bty.weekday) := by
  have hwlt : bty.weekday < 7 := Nat.mod_lt _ (by norm_num)
  have hord := (addDays_ok_toOrdinal current_date hok
    ((dateSub bty current_date + ((7 : Int) - (bty.weekday : Int))).toNat)).2
  refine ⟨?_, ?_, ?_⟩
  · unfold upcomingEntry
    rw [hb]
    dsimp only
    rw [hty, py_bind_ok]
    rw [if_pos ⟨h0, h8⟩, if_pos hwk]
    rfl
  · simp only [dateSub, PyDate.weekday] at *
    omega
  · simp only [dateSub, PyDate.weekday] at *
    omega

/-- C4 witness: today Monday 10.06.2024, birthday Saturday 15.06.2024;
the emitted congratulation date is Monday 17.06.2024. -/
theorem C4_weekend_shift_witness :
    upcomingEntry ⟨2024, 6, 10⟩ "A" ⟨"A", [], some ⟨⟨2000, 6, 15⟩, "15.06.2000"⟩⟩
      = .ok (some ⟨"A", ⟨2024, 6, 17⟩⟩) := by
  have h := C4_weekend_shift ⟨2024, 6, 10⟩ (by decide) "A"
    ⟨"A", [], some ⟨⟨2000, 6, 15⟩, "15.06.2000"⟩⟩ ⟨⟨2000, 6, 15⟩, "15.06.2000"⟩
    ⟨2024, 6, 15⟩ rfl rfl (by decide) (by decide) (by decide)
  rw [h.1]
  rfl

/-- C5: the upcoming-birthdays query on a one-record book (given that
the query returns a result rather than raising) includes the contact
iff the record has a birthday whose adjusted next occurrence — this
year, or next year when this year's is already past — is between 0 and
7 days away inclusive: a birthday falling today is included, one
exactly 8 days out is excluded. -/
theorem C5_window (current_date : PyDate) (name : String) (r : Record)
    (l : List CongratEntry)
    (h : get_upcoming_birthdays current_date [(name, r)] = .ok l) :
    (∃ e, e ∈ l ∧ e.name = name) ↔
      (∃ bd bty, r.birthday = some bd ∧
        birthdayThisYear current_date bd.date = .ok bty ∧
        0 ≤ dateSub bty current_date ∧ dateSub bty current_date < 8) := by
  unfold get_upcoming_birthdays upcomingLoop at h
  cases he : upcomingEntry current_date name r with
  | error e =>
      rw [he, py_bind_error] at h
      simp at h
  | ok e0 =>
      rw [he, py_bind_ok,
        show upcomingLoop current_date [] = Except.ok [] from rfl,
        py_bind_ok] at h
      simp only [pure, Except.pure, List.append_nil, Except.ok.injEq] at h
      subst h
      unfold upcomingEntry at he
      cases hb : r.birthday with
      | none =>
          rw [hb] at he
          dsimp only at he
          simp only [Except.ok.injEq] at he
          subst he
          constructor
          · rintro ⟨e, he2, _⟩
            simp at he2
          · rintro ⟨bd, bty, hbd, _⟩
            exact Option.noConfusion hbd
      | some bd =>
          rw [hb] at he
          dsimp only at he
          cases hty : birthdayThisYear current_date bd.date with
          | error e =>
              rw [hty, py_bind_error] at he
              simp at he
          | ok bty =>
              rw [hty, py_bind_ok] at he
              by_cases hwin : 0 ≤ dateSub bty current_date ∧
                  dateSub bty current_date < 8
              · rw [if_pos hwin] at he
                simp only [pure, Except.pure, Except.ok.injEq] at he
                subst he
                constructor
                · intro _
                  exact ⟨bd, bty, rfl, hty, hwin.1, hwin.2⟩
                · intro _
                  simp [Option.toList]
              · rw [if_neg hwin] at he
                simp only [pure, Except.pure, Except.ok.injEq] at he
                subst he
                constructor
                · rintro ⟨e, he2, _⟩
                  simp at he2
                · rintro ⟨bd2, bty2, hbd2, hty2, hw1, hw2⟩
                  simp only [Option.some.injEq] at hbd2
                  subst hbd2
                  rw [hty] at hty2
                  simp only [Except.ok.injEq] at hty2
                  subst hty2
                  exact absurd ⟨hw1, hw2⟩ hwin

/-- C5 witness: with today 10.06.2024, a birthday falling today is
included, and one exactly 8 days out (18.06.2024) yields an empty
result, so exclusion holds there too. -/
theorem C5_window_witness :
    (∃ e, e ∈ [(⟨"A", ⟨2024, 6, 10⟩⟩ : CongratEntry)] ∧ e.name = "A") ∧
    ¬ (∃ e, e ∈ ([] : List CongratEntry) ∧ e.name = "A") := by
  constructor
  · exact (C5_window ⟨2024, 6, 10⟩ "A"
      ⟨"A", [], some ⟨⟨2000, 6, 10⟩, "10.06.2000"⟩⟩ _ rfl).mpr
      ⟨⟨⟨2000, 6, 10⟩, "10.06.2000"⟩, ⟨2024, 6, 10⟩, rfl, rfl,
        by decide, by decide⟩
  · intro hex
    have hwin := (C5_window ⟨2024, 6, 10⟩ "A"
      ⟨"A", [], some ⟨⟨2000, 6, 18⟩, "18.06.2000"⟩⟩ [] rfl).mp hex
    obtain ⟨bd, bty, hbd, hty, hw1, hw2⟩ := hwin
    simp only [Option.some.injEq] at hbd
    subst hbd
    rw [show birthdayThisYear ⟨2024, 6, 10⟩
        (⟨⟨2000, 6, 18⟩, "18.06.2000"⟩ : Birthday).date
      = .ok ⟨2024, 6, 18⟩ from rfl] at hty
    simp only [Except.ok.injEq] at hty
    subst hty
    exact absurd hw2 (by decide)

end Bot
